import Mathlib

/-!
Shallow embedding of the telegram auto-delete bot (`src/main.py`).

The timer store (`telegram.ext.JobQueue`, PTB v13) is modelled as a list of
named jobs; handlers become pure functions from a context (job queue, clock,
bot-side message-id supply, parsed command arguments) to a new context plus a
chronological list of observable effects (messages deleted, messages sent,
log lines).  Telegram identifiers are natural numbers; Python truthiness of
an optional integer field (`if not chat_id`) is `none` or `some 0`.
-/

namespace AutoDeleteBot

/-- A chat message, identified by its message id and the id of the chat it
lives in (`telegram.Message.message_id` / `chat_id`). -/
structure Message where
  message_id : Nat
  chat_id : Nat
deriving DecidableEq, Repr

/-- The incoming update's message: its own ids plus the optional message it
replies to (`update.message.reply_to_message`). -/
structure UpdMessage where
  message_id : Nat
  chat_id : Nat
  reply_to_message : Option Message
deriving DecidableEq, Repr

/-- An incoming `telegram.Update`: only the `message` field is used. -/
structure Update where
  message : UpdMessage
deriving DecidableEq, Repr

/-- The payload dict passed as `context=` to `job_queue.run_once`.  A Python
dict read with `.get` is modelled with one field per key used by the source:
`.get("chat_id")` / `.get("message_id")` return `none` for an absent key,
`.get("is_child_message", False)` and `.get("children", [])` supply the
defaults recorded here when the key is absent. -/
structure JobContext where
  chat_id : Option Nat
  message_id : Option Nat
  is_child_message : Bool
  children : List Nat
deriving DecidableEq, Repr

/-- One job registered in the `JobQueue`: its name, the absolute time the
callback is due (`delete_at` passed to `run_once`), and its payload. -/
structure Job where
  name : String
  run_at : Int
  context : Option JobContext
deriving DecidableEq, Repr

/-- Observable side effects on the Telegram collaborator and the log. -/
inductive Effect where
  | deleteMessage (chat_id : Nat) (message_id : Nat)
  | sendMessage (chat_id : Nat) (reply_to : Nat) (text : String) (new_message_id : Nat)
  | log (text : String)
deriving DecidableEq, Repr

/-- The pieces of `telegram.ext.CallbackContext` (and ambient state) the
handlers use: the job queue (`context.job_queue`, possibly `None`), the
current clock (`datetime.utcnow()`), the id Telegram will assign to the next
bot-sent message, and the parsed command arguments `context.args`. -/
structure Ctx where
  job_queue : Option (List Job)
  now : Int
  next_bot_message_id : Nat
  args : List Int
deriving DecidableEq, Repr

/-- Python truthiness of an optional integer: `None` and `0` are falsy. -/
def falsy : Option Nat → Bool
  | none => true
  | some n => n == 0

/-- Source `get_job_name(child, parent="root")`, i.e. `f"{parent}_{child}"`.
Call sites pass the formatted ids; the root-name call sites use the default
parent `"root"`, written explicitly here. -/
def get_job_name (child : String) (parent : String) : String :=
  parent ++ "_" ++ child

/-- Root timer name for a subject message id, `root_<subjectMessageId>`
(the source's `get_job_name(message_id)` with the default parent). -/
def rootName (subject_id : Nat) : String :=
  get_job_name (Nat.repr subject_id) "root"

/-- Child timer name `<subjectMessageId>_<childMessageId>` (the source's
`get_job_name(child_id, subject_id)`). -/
def childName (subject_id child_id : Nat) : String :=
  get_job_name (Nat.repr child_id) (Nat.repr subject_id)

/-!
Decimal-representation infrastructure.  `Nat.repr` is defined through the
fuel-driven `Nat.toDigitsCore`; `natChars` is a structurally recursive
reformulation, proved equal, from which injectivity of `Nat.repr` and the
fact that its characters are decimal digits follow.
-/

/-- Decimal digit characters of `n`, most significant first. -/
def natChars (n : Nat) : List Char :=
  if _h : n < 10 then [Nat.digitChar n]
  else natChars (n / 10) ++ [Nat.digitChar (n % 10)]
  decreasing_by exact Nat.div_lt_self (by omega) (by omega)

theorem natChars_of_lt (n : Nat) (h : n < 10) : natChars n = [Nat.digitChar n] := by
  rw [natChars, dif_pos h]

theorem natChars_of_ge (n : Nat) (h : ¬ n < 10) :
    natChars n = natChars (n / 10) ++ [Nat.digitChar (n % 10)] := by
  rw [natChars, dif_neg h]

theorem toDigitsCore_eq_natChars :
    ∀ (fuel n : Nat) (ds : List Char), n < fuel →
      Nat.toDigitsCore 10 fuel n ds = natChars n ++ ds := by
  intro fuel
  induction fuel with
  | zero => intro n ds h; omega
  | succ f ih =>
    intro n ds h
    show (if n / 10 = 0 then Nat.digitChar (n % 10) :: ds
          else Nat.toDigitsCore 10 f (n / 10) (Nat.digitChar (n % 10) :: ds))
        = natChars n ++ ds
    by_cases h10 : n / 10 = 0
    · have hn : n < 10 := by omega
      rw [if_pos h10, natChars_of_lt n hn, Nat.mod_eq_of_lt hn]
      rfl
    · have hn : ¬ n < 10 := by
        intro hc
        exact h10 (Nat.div_eq_of_lt hc)
      have hlt : n / 10 < f := by
        have h1 : n / 10 < n := Nat.div_lt_self (by omega) (by omega)
        omega
      rw [if_neg h10, ih (n / 10) (Nat.digitChar (n % 10) :: ds) hlt,
        natChars_of_ge n hn, List.append_assoc]
      rfl

/-- The decimal representation used by `Nat.repr`, as a character list. -/
theorem repr_data (n : Nat) : (Nat.repr n).data = natChars n := by
  show (Nat.toDigitsCore 10 (n + 1) n []).asString.data = natChars n
  rw [toDigitsCore_eq_natChars (n + 1) n [] (Nat.lt_succ_self n), List.append_nil]
  rfl

theorem digitChar_mem_digits (m : Nat) (h : m < 10) :
    Nat.digitChar m ∈ (['0', '1', '2', '3', '4', '5', '6', '7', '8', '9'] : List Char) := by
  interval_cases m <;> decide

theorem natChars_mem_digits (n : Nat) :
    ∀ c ∈ natChars n, c ∈ (['0', '1', '2', '3', '4', '5', '6', '7', '8', '9'] : List Char) := by
  induction n using Nat.strong_induction_on with
  | _ n ih =>
    intro c hc
    by_cases h : n < 10
    · rw [natChars_of_lt n h] at hc
      simp only [List.mem_singleton] at hc
      subst hc
      exact digitChar_mem_digits n h
    · rw [natChars_of_ge n h] at hc
      rcases List.mem_append.mp hc with h1 | h2
      · exact ih (n / 10) (Nat.div_lt_self (by omega) (by omega)) c h1
      · simp only [List.mem_singleton] at h2
        subst h2
        exact digitChar_mem_digits (n % 10) (Nat.mod_lt n (by omega))

theorem natChars_ne_nil (n : Nat) : natChars n ≠ [] := by
  by_cases h : n < 10
  · rw [natChars_of_lt n h]; simp
  · rw [natChars_of_ge n h]; simp

theorem digitChar_toNat (m : Nat) (h : m < 10) :
    (Nat.digitChar m).toNat - 48 = m := by
  interval_cases m <;> decide

/-- Reading the digit list back: left fold interpreting decimal digits. -/
def unrepr (cs : List Char) : Nat :=
  cs.foldl (fun acc c => acc * 10 + (c.toNat - 48)) 0

theorem foldl_natChars (n : Nat) :
    ∀ a : Nat, (natChars n).foldl (fun acc c => acc * 10 + (c.toNat - 48)) a
      = a * 10 ^ (natChars n).length + n := by
  induction n using Nat.strong_induction_on with
  | _ n ih =>
    intro a
    by_cases h : n < 10
    · rw [natChars_of_lt n h]
      simp [List.foldl, digitChar_toNat n h]
    · rw [natChars_of_ge n h]
      rw [List.foldl_append]
      rw [ih (n / 10) (Nat.div_lt_self (by omega) (by omega)) a]
      simp only [List.foldl, List.length_append, List.length_singleton]
      rw [digitChar_toNat (n % 10) (Nat.mod_lt n (by omega))]
      rw [pow_succ]
      have := Nat.div_add_mod n 10
      ring_nf
      omega

theorem unrepr_natChars (n : Nat) : unrepr (natChars n) = n := by
  show (natChars n).foldl (fun acc c => acc * 10 + (c.toNat - 48)) 0 = n
  rw [foldl_natChars n 0]
  simp

theorem natChars_injective : Function.Injective natChars := by
  intro a b h
  have := unrepr_natChars a
  rw [h, unrepr_natChars b] at this
  exact this.symm

theorem repr_injective : Function.Injective Nat.repr := by
  intro a b h
  apply natChars_injective
  rw [← repr_data, ← repr_data, h]

/-!
Name-shape lemmas: a root name `root_<digits>` never equals a child name
`<digits>_<digits>` (the latter starts with a decimal digit, the former with
the letter r), root names of distinct subjects differ, and child names under
one subject determine the child id.
-/

theorem get_job_name_data (child parent : String) :
    (get_job_name child parent).data = parent.data ++ '_' :: child.data := by
  show (parent ++ "_" ++ child).data = parent.data ++ '_' :: child.data
  simp [String.data_append]

theorem childName_ne_rootName (s c t : Nat) : childName s c ≠ rootName t := by
  intro h
  have hd : (childName s c).data = (rootName t).data := by rw [h]
  rw [show childName s c = get_job_name (Nat.repr c) (Nat.repr s) from rfl,
    show rootName t = get_job_name (Nat.repr t) "root" from rfl,
    get_job_name_data, get_job_name_data, repr_data, repr_data] at hd
  have hhead := congrArg List.head? hd
  rcases hne : natChars s with _ | ⟨d, rest⟩
  · exact natChars_ne_nil s hne
  · rw [hne] at hhead
    simp only [List.cons_append, List.head?] at hhead
    have hdmem : d ∈ natChars s := by rw [hne]; exact List.mem_cons_self d rest
    have := natChars_mem_digits s d hdmem
    have hdr : d = 'r' := by simpa using hhead
    subst hdr
    simp at this

theorem rootName_inj (s t : Nat) (h : rootName s = rootName t) : s = t := by
  have hd : (rootName s).data = (rootName t).data := by rw [h]
  rw [show rootName s = get_job_name (Nat.repr s) "root" from rfl,
    show rootName t = get_job_name (Nat.repr t) "root" from rfl,
    get_job_name_data, get_job_name_data, repr_data, repr_data] at hd
  have := List.append_cancel_left hd
  simp only [List.cons.injEq, true_and] at this
  exact natChars_injective this

theorem childName_inj_child (s c d : Nat) (h : childName s c = childName s d) : c = d := by
  have hd : (childName s c).data = (childName s d).data := by rw [h]
  rw [show childName s c = get_job_name (Nat.repr c) (Nat.repr s) from rfl,
    show childName s d = get_job_name (Nat.repr d) (Nat.repr s) from rfl,
    get_job_name_data, get_job_name_data, repr_data, repr_data, repr_data] at hd
  have := List.append_cancel_left hd
  simp only [List.cons.injEq, true_and] at this
  exact natChars_injective this

@[simp] theorem beq_childName_rootName (s c t : Nat) :
    (childName s c == rootName t) = false :=
  beq_eq_false_iff_ne.mpr (childName_ne_rootName s c t)

@[simp] theorem beq_rootName_childName (t s c : Nat) :
    (rootName t == childName s c) = false :=
  beq_eq_false_iff_ne.mpr fun h => childName_ne_rootName s c t h.symm

@[simp] theorem beq_rootName_rootName (s t : Nat) :
    (rootName s == rootName t) = (s == t) := by
  by_cases h : s = t
  · subst h; simp
  · rw [beq_eq_false_iff_ne.mpr (fun hc => h (rootName_inj s t hc)),
      (beq_eq_false_iff_ne.mpr h).symm]

@[simp] theorem beq_childName_childName (s c d : Nat) :
    (childName s c == childName s d) = (c == d) := by
  by_cases h : c = d
  · subst h; simp
  · rw [beq_eq_false_iff_ne.mpr (fun hc => h (childName_inj_child s c d hc)),
      (beq_eq_false_iff_ne.mpr h).symm]

/-!
The embedded program.  Each definition mirrors the function of the same name
in `src/main.py`.
-/

/-- Source `delete_message`: issues one `bot.delete_message` call; a
`BadRequest` from the collaborator is caught and logged inside the source, so
the observable effect is always exactly the issued call. -/
def delete_message (chat_id message_id : Nat) : List Effect :=
  [Effect.deleteMessage chat_id message_id]

/-- Source `purge_message` (the `run_once` callback), applied to the fired
job's payload dict (the callback's `job.context`; the source's `if not job:
return` guard is the runtime's concern).  Reads `chat_id` and `message_id`
with `.get`; if either is falsy it logs `[Purge message] Missing params` and
returns, otherwise it deletes that one message. -/
def purge_message (data : JobContext) : List Effect :=
  match data.chat_id, data.message_id with
  | some chat_id, some message_id =>
    if chat_id == 0 || message_id == 0 then
      [Effect.log "[Purge message] Missing params"]
    else
      delete_message chat_id message_id
  | _, _ => [Effect.log "[Purge message] Missing params"]

/-- The `for child in children:` loop inside `remove_job_if_exists`,
parameterised by the recursive removal function `rm`: cancels
`get_job_name(child, message_id)` for each listed child id in order,
threading the queue and concatenating effects. -/
def cancelChildrenWith (rm : String → List Job → List Job × List Effect × Bool)
    (message_id : Nat) : List Nat → List Job → List Job × List Effect
  | [], q => (q, [])
  | child :: rest, q =>
    let r := rm (get_job_name (Nat.repr child) (Nat.repr message_id)) q
    let r2 := cancelChildrenWith rm message_id rest r.1
    (r2.1, r.2.1 ++ r2.2)

/-- The `for job in current_jobs:` loop of `remove_job_if_exists`,
parameterised by the recursive removal function `rm`.  Each job is first
removed from the queue (`job.schedule_removal()`, immediate removal in PTB
v13), then its payload is examined: no payload means nothing further; a
payload with a falsy `chat_id` or `message_id` is logged and skipped; an
`is_child_message` payload triggers an immediate `delete_message`; otherwise
a non-empty `children` list is cascaded via `rm`. -/
def processJobsWith (rm : String → List Job → List Job × List Effect × Bool) :
    List Job → List Job → List Job × List Effect
  | [], q => (q, [])
  | job :: rest, q =>
    let q1 := q.erase job
    match job.context with
    | none => processJobsWith rm rest q1
    | some job_context =>
      match job_context.chat_id, job_context.message_id with
      | some chat_id, some message_id =>
        if chat_id == 0 || message_id == 0 then
          let r := processJobsWith rm rest q1
          (r.1, Effect.log "[Remove jobs] Invalid job context" :: r.2)
        else if job_context.is_child_message then
          let r := processJobsWith rm rest q1
          (r.1, delete_message chat_id message_id ++ r.2)
        else
          match job_context.children with
          | [] => processJobsWith rm rest q1
          | child :: children_rest =>
            let rc := cancelChildrenWith rm message_id (child :: children_rest) q1
            let r := processJobsWith rm rest rc.1
            (r.1, rc.2 ++ r.2)
      | _, _ =>
        let r := processJobsWith rm rest q1
        (r.1, Effect.log "[Remove jobs] Invalid job context" :: r.2)

/-- The body of `remove_job_if_exists` acting on the job-queue list.
`get_jobs_by_name` is a filter by name; no match returns `False`; otherwise
every matched job is processed and `True` is returned.  The `fuel` argument
makes the source's recursion (root job → named children) structural; each
nested call strictly shrinks the queue before recursing, so the
`queue length + 1` fuel supplied by `remove_job_if_exists` never runs out
(the 0 case is unreachable there). -/
def remove_job_core : Nat → String → List Job → List Job × List Effect × Bool
  | 0 => fun _ q => (q, [], false)
  | fuel + 1 => fun name q =>
    let current_jobs := q.filter (fun job => job.name == name)
    match current_jobs with
    | [] => (q, [], false)
    | job :: rest =>
      let r := processJobsWith (fun n qq => remove_job_core fuel n qq) (job :: rest) q
      (r.1, r.2, true)

/-- Source `remove_job_if_exists(name, context)`: returns `True` immediately
when `context.job_queue` is `None`, otherwise removes every job registered
under `name`, cascading as described above, and reports whether any job was
found. -/
def remove_job_if_exists (name : String) (ctx : Ctx) : Ctx × List Effect × Bool :=
  match ctx.job_queue with
  | none => (ctx, [], true)
  | some q =>
    let r := remove_job_core (q.length + 1) name q
    ({ ctx with job_queue := some r.1 }, r.2.1, r.2.2)

/-- External Messaging Client collaborator, `Message.reply_text`: sends a
reply in the given chat and returns the id Telegram assigned to the new
message (spec section 6: `sendMessage(chatId, text) -> Message{id}`); ids are
drawn from the context's supply. -/
def reply_text (ctx : Ctx) (chat_id reply_to : Nat) (text : String) :
    Ctx × Nat × Effect :=
  ({ ctx with next_bot_message_id := ctx.next_bot_message_id + 1 },
   ctx.next_bot_message_id,
   Effect.sendMessage chat_id reply_to text ctx.next_bot_message_id)

/-- Source `set_timer(context, message, due, children, show_response)`:
computes `delete_at = utcnow() + due`, always cancels the prior batch under
the subject's root name, and then (when a job queue exists) registers one
leaf child timer per extra message, optionally sends and registers the
announcement reply, and finally registers the root timer whose payload lists
every child id. -/
def set_timer (ctx : Ctx) (message : Message) (due : Int)
    (children : List Message) (show_response : Bool) : Ctx × List Effect :=
  let delete_at : Int := ctx.now + due
  let r := remove_job_if_exists (get_job_name (Nat.repr message.message_id) "root") ctx
  let ctx1 := r.1
  let job_removed := r.2.2
  let chat_id := message.chat_id
  match ctx1.job_queue with
  | none => (ctx1, r.2.1)
  | some q =>
    let children_ids := children.map (fun child => child.message_id)
    let q1 := q ++ children.map (fun child =>
      { name := get_job_name (Nat.repr child.message_id) (Nat.repr message.message_id),
        run_at := delete_at,
        context := some { chat_id := some chat_id, message_id := some child.message_id,
                          is_child_message := true, children := [] } })
    if show_response then
      let base := "This message will delete after " ++ toString due ++ " second(s)"
      let text := if job_removed then "Old timer was removed. " ++ base else base
      let rt := reply_text ctx1 chat_id message.message_id text
      let bot_message_id := rt.2.1
      let q2 := q1 ++
        [{ name := get_job_name (Nat.repr bot_message_id) (Nat.repr message.message_id),
           run_at := delete_at,
           context := some { chat_id := some chat_id, message_id := some bot_message_id,
                             is_child_message := true, children := [] } }]
      let q3 := q2 ++
        [{ name := get_job_name (Nat.repr message.message_id) "root",
           run_at := delete_at,
           context := some { chat_id := some chat_id, message_id := some message.message_id,
                             is_child_message := false,
                             children := children_ids ++ [bot_message_id] } }]
      ({ rt.1 with job_queue := some q3 }, r.2.1 ++ [rt.2.2])
    else
      let q3 := q1 ++
        [{ name := get_job_name (Nat.repr message.message_id) "root",
           run_at := delete_at,
           context := some { chat_id := some chat_id, message_id := some message.message_id,
                             is_child_message := false, children := children_ids } }]
      ({ ctx1 with job_queue := some q3 }, r.2.1)

/-- Source `set_timer_from_command` (the `/set` handler): requires a
reply-target and an argument; a negative requested delay is answered with an
apology and nothing is scheduled; otherwise the replied-to message is
scheduled with the command message as an extra child and an announcement.
(`context.args` is modelled already integer-parsed; `due = ceil(due)` on an
`int` is the identity and is omitted.) -/
def set_timer_from_command (update : Update) (ctx : Ctx) : Ctx × List Effect :=
  let command_message := update.message
  match command_message.reply_to_message with
  | none =>
    let r := reply_text ctx command_message.chat_id command_message.message_id
      "You have to reply the message which you want to schedule delete"
    (r.1, [r.2.2])
  | some root_message =>
    match ctx.args with
    | [] =>
      let r := reply_text ctx command_message.chat_id command_message.message_id
        "Missing params!, send /help for more information"
      (r.1, [r.2.2])
    | due :: _ =>
      if due < 0 then
        let r := reply_text ctx command_message.chat_id command_message.message_id
          "Sorry we can not go back to future!"
        (r.1, [r.2.2])
      else
        set_timer ctx root_message due
          [{ message_id := command_message.message_id,
             chat_id := command_message.chat_id }] true

/-- Source `unset` (the `/unset` handler).  When the command is not a reply,
`update.message.reply_to_message.message_id` raises an uncaught
`AttributeError` before anything else happens, modelled as the error case.
Otherwise the root batch of the replied-to message is cancelled, and if a job
queue exists and something was removed, the command message itself is
deleted. -/
def unset (update : Update) (ctx : Ctx) : Except String (Ctx × List Effect) :=
  let chat_id := update.message.chat_id
  match update.message.reply_to_message with
  | none => Except.error "AttributeError: NoneType object has no attribute message_id"
  | some reply =>
    let job_name := get_job_name (Nat.repr reply.message_id) "root"
    let r := remove_job_if_exists job_name ctx
    if r.1.job_queue.isSome && r.2.2 then
      Except.ok (r.1, r.2.1 ++ delete_message chat_id update.message.message_id)
    else
      Except.ok (r.1, r.2.1)

/-- The PTB job runtime delivering a due job: the fired job leaves the queue
and its callback `purge_message` runs on its payload; a job registered with a
`None` payload would crash the callback at `data.get` (error case; every job
this program registers carries a payload). -/
def fire_job (job : Job) (q : List Job) : Except String (List Job × List Effect) :=
  match job.context with
  | none => Except.error "AttributeError: NoneType object has no attribute get"
  | some data => Except.ok (q.erase job, purge_message data)

/-!
Structural lemmas about cancellation: removal never adds jobs (the resulting
queue is a sublist of the input), and after a removal pass no job under the
cancelled name survives — regardless of the queue's contents.
-/

theorem remove_job_core_zero (name : String) (q : List Job) :
    remove_job_core 0 name q = (q, [], false) := by
  rw [remove_job_core]

theorem remove_job_core_succ_nil (fuel : Nat) (name : String) (q : List Job)
    (h : q.filter (fun job => job.name == name) = []) :
    remove_job_core (fuel + 1) name q = (q, [], false) := by
  rw [remove_job_core]
  simp only [h]

theorem remove_job_core_succ_cons (fuel : Nat) (name : String) (q : List Job)
    (j : Job) (rest : List Job)
    (h : q.filter (fun job => job.name == name) = j :: rest) :
    remove_job_core (fuel + 1) name q =
      ((processJobsWith (fun n qq => remove_job_core fuel n qq) (j :: rest) q).1,
       (processJobsWith (fun n qq => remove_job_core fuel n qq) (j :: rest) q).2,
       true) := by
  rw [remove_job_core]
  simp only [h]

theorem cancelChildrenWith_sublist
    (rm : String → List Job → List Job × List Effect × Bool)
    (hrm : ∀ n q, ((rm n q).1).Sublist q) (message_id : Nat) :
    ∀ (cs : List Nat) (q : List Job),
      ((cancelChildrenWith rm message_id cs q).1).Sublist q := by
  intro cs
  induction cs with
  | nil => intro q; exact List.Sublist.refl q
  | cons c rest ih =>
    intro q
    exact (ih _).trans (hrm _ q)

theorem processJobsWith_sublist
    (rm : String → List Job → List Job × List Effect × Bool)
    (hrm : ∀ n q, ((rm n q).1).Sublist q) :
    ∀ (js : List Job) (q : List Job),
      ((processJobsWith rm js q).1).Sublist q := by
  intro js
  induction js with
  | nil => intro q; exact List.Sublist.refl q
  | cons j rest ih =>
    intro q
    have herase : (q.erase j).Sublist q := List.erase_sublist j q
    obtain ⟨jn, jt, jctx⟩ := j
    rcases jctx with _ | ⟨oc, om, ich, ch⟩
    · exact (ih _).trans herase
    · rcases oc with _ | chat <;> rcases om with _ | mid <;>
        simp only [processJobsWith]
      · exact (ih _).trans herase
      · exact (ih _).trans herase
      · exact (ih _).trans herase
      · by_cases h0 : (chat == 0 || mid == 0) = true
        · rw [if_pos h0]; exact (ih _).trans herase
        · rw [if_neg h0]
          rcases ich with _ | _
          · rcases ch with _ | ⟨c, cs⟩
            · simp only [Bool.false_eq_true, if_false]
              exact (ih _).trans herase
            · simp only [Bool.false_eq_true, if_false]
              exact ((ih _).trans
                (cancelChildrenWith_sublist rm hrm mid (c :: cs) _)).trans herase
          · simp only [if_true]
            exact (ih _).trans herase

theorem remove_job_core_sublist :
    ∀ (fuel : Nat) (name : String) (q : List Job),
      ((remove_job_core fuel name q).1).Sublist q := by
  intro fuel
  induction fuel with
  | zero => intro name q; rw [remove_job_core_zero]
  | succ f ih =>
    intro name q
    rcases hcur : q.filter (fun job => job.name == name) with _ | ⟨j, rest⟩
    · rw [remove_job_core_succ_nil f name q hcur]
    · rw [remove_job_core_succ_cons f name q j rest hcur]
      exact processJobsWith_sublist _ (fun n qq => ih n qq) (j :: rest) q

theorem processJobsWith_count_zero
    (rm : String → List Job → List Job × List Effect × Bool)
    (hrm : ∀ n q, ((rm n q).1).Sublist q) (name : String) :
    ∀ (js : List Job) (q : List Job),
      (∀ v : Job, v.name = name → q.count v ≤ js.count v) →
      ∀ v : Job, v.name = name → ((processJobsWith rm js q).1).count v = 0 := by
  intro js
  induction js with
  | nil =>
    intro q h v hv
    have := h v hv
    simpa using this
  | cons j rest ih =>
    intro q h v hv
    have hq1 : ∀ v : Job, v.name = name → (q.erase j).count v ≤ rest.count v := by
      intro w hw
      have hcnt := h w hw
      rw [List.count_cons] at hcnt
      rw [List.count_erase]
      by_cases hwj : j = w
      · subst hwj
        simp only [beq_self_eq_true, if_true] at hcnt ⊢
        omega
      · have hbf : (j == w) = false := beq_eq_false_iff_ne.mpr hwj
        rw [hbf] at hcnt ⊢
        simpa using hcnt
    have hcascade : ∀ (mid : Nat) (cs : List Nat),
        ∀ w : Job, w.name = name →
          ((cancelChildrenWith rm mid cs (q.erase j)).1).count w ≤ rest.count w := by
      intro mid cs w hw
      exact le_trans
        (List.Sublist.count_le (cancelChildrenWith_sublist rm hrm mid cs (q.erase j)) w)
        (hq1 w hw)
    obtain ⟨jn, jt, jctx⟩ := j
    rcases jctx with _ | ⟨oc, om, ich, ch⟩
    · exact ih _ hq1 v hv
    · rcases oc with _ | chat <;> rcases om with _ | mid <;>
        simp only [processJobsWith]
      · exact ih _ hq1 v hv
      · exact ih _ hq1 v hv
      · exact ih _ hq1 v hv
      · by_cases h0 : (chat == 0 || mid == 0) = true
        · rw [if_pos h0]; exact ih _ hq1 v hv
        · rw [if_neg h0]
          rcases ich with _ | _
          · rcases ch with _ | ⟨c, cs⟩
            · simp only [Bool.false_eq_true, if_false]
              exact ih _ hq1 v hv
            · simp only [Bool.false_eq_true, if_false]
              exact ih _ (fun w hw => hcascade mid (c :: cs) w hw) v hv
          · simp only [if_true]
            exact ih _ hq1 v hv

theorem count_filter_of_pos {α : Type} [DecidableEq α] (p : α → Bool) (v : α)
    (hp : p v = true) : ∀ l : List α, (l.filter p).count v = l.count v := by
  intro l
  induction l with
  | nil => rfl
  | cons a l ih =>
    by_cases hav : a = v
    · subst hav
      rw [List.filter_cons_of_pos hp, List.count_cons_self, List.count_cons_self, ih]
    · have h1 : (a == v) = false := beq_eq_false_iff_ne.mpr hav
      by_cases hpa : p a = true
      · rw [List.filter_cons_of_pos hpa, List.count_cons, List.count_cons, h1, ih]
      · rw [List.filter_cons_of_neg (by simpa using hpa), List.count_cons, h1, ih]
        simp

/-- After one removal pass with positive fuel, no job registered under the
removed name remains in the queue, whatever the queue contained. -/
theorem remove_job_core_removes_all (fuel : Nat) (name : String) (q : List Job) :
    ((remove_job_core (fuel + 1) name q).1).filter (fun job => job.name == name) = [] := by
  rcases hcur : q.filter (fun job => job.name == name) with _ | ⟨j, rest⟩
  · rw [remove_job_core_succ_nil fuel name q hcur]
    exact hcur
  · rw [remove_job_core_succ_cons fuel name q j rest hcur]
    have hzero : ∀ v : Job, v.name = name →
        ((processJobsWith (fun n qq => remove_job_core fuel n qq) (j :: rest) q).1).count v
          = 0 := by
      apply processJobsWith_count_zero _ (fun n qq => remove_job_core_sublist fuel n qq)
      intro v hv
      have : (q.filter (fun job => job.name == name)).count v = q.count v :=
        count_filter_of_pos _ v (by simpa using hv) q
      rw [hcur] at this
      omega
    rw [List.filter_eq_nil_iff]
    intro a ha
    intro hpa
    have hname : a.name = name := by simpa using hpa
    have := hzero a hname
    rw [List.count_eq_zero] at this
    exact this ha

/-!
Further structural lemmas: the comparison facts restated on the literal
`get_job_name` applications the program produces, and environment
preservation facts about `remove_job_if_exists`.
-/

@[simp] theorem beq_gjn_child_root (c s t : Nat) :
    (get_job_name (Nat.repr c) (Nat.repr s) == get_job_name (Nat.repr t) "root") = false :=
  beq_childName_rootName s c t

@[simp] theorem beq_gjn_root_child (t c s : Nat) :
    (get_job_name (Nat.repr t) "root" == get_job_name (Nat.repr c) (Nat.repr s)) = false :=
  beq_rootName_childName t s c

@[simp] theorem beq_gjn_root_root (s t : Nat) :
    (get_job_name (Nat.repr s) "root" == get_job_name (Nat.repr t) "root") = (s == t) :=
  beq_rootName_rootName s t

@[simp] theorem beq_gjn_child_child (s c d : Nat) :
    (get_job_name (Nat.repr c) (Nat.repr s) == get_job_name (Nat.repr d) (Nat.repr s))
      = (c == d) :=
  beq_childName_childName s c d

theorem filter_beq_nil (name : String) (l : List Job)
    (h : ∀ j ∈ l, (j.name == name) = false) :
    l.filter (fun job => job.name == name) = [] :=
  List.filter_eq_nil_iff.mpr (fun a ha => by simp [h a ha])

theorem remove_job_if_exists_job_queue (name : String) (ctx : Ctx) (q : List Job)
    (hq : ctx.job_queue = some q) :
    (remove_job_if_exists name ctx).1.job_queue
      = some (remove_job_core (q.length + 1) name q).1 := by
  unfold remove_job_if_exists
  rw [hq]

theorem remove_job_if_exists_env (name : String) (ctx : Ctx) :
    (remove_job_if_exists name ctx).1.now = ctx.now ∧
    (remove_job_if_exists name ctx).1.next_bot_message_id = ctx.next_bot_message_id ∧
    (remove_job_if_exists name ctx).1.args = ctx.args := by
  cases hq : ctx.job_queue <;> simp [remove_job_if_exists, hq]

/-- Classifier for outbound chat messages among effects. -/
def is_send_effect : Effect → Bool
  | Effect.sendMessage _ _ _ _ => true
  | _ => false

theorem cancelChildrenWith_no_send
    (rm : String → List Job → List Job × List Effect × Bool)
    (hrm : ∀ n q, ((rm n q).2.1).filter is_send_effect = []) (message_id : Nat) :
    ∀ (cs : List Nat) (q : List Job),
      ((cancelChildrenWith rm message_id cs q).2).filter is_send_effect = [] := by
  intro cs
  induction cs with
  | nil => intro q; rfl
  | cons c rest ih =>
    intro q
    show ((_ ++ _ : List Effect)).filter is_send_effect = []
    rw [List.filter_append, hrm, ih, List.append_nil]

theorem processJobsWith_no_send
    (rm : String → List Job → List Job × List Effect × Bool)
    (hrm : ∀ n q, ((rm n q).2.1).filter is_send_effect = []) :
    ∀ (js : List Job) (q : List Job),
      ((processJobsWith rm js q).2).filter is_send_effect = [] := by
  intro js
  induction js with
  | nil => intro q; rfl
  | cons j rest ih =>
    intro q
    obtain ⟨jn, jt, jctx⟩ := j
    rcases jctx with _ | ⟨oc, om, ich, ch⟩
    · exact ih _
    · rcases oc with _ | chat <;> rcases om with _ | mid <;>
        simp only [processJobsWith]
      · rw [List.filter_cons_of_neg (by simp [is_send_effect])]; exact ih _
      · rw [List.filter_cons_of_neg (by simp [is_send_effect])]; exact ih _
      · rw [List.filter_cons_of_neg (by simp [is_send_effect])]; exact ih _
      · by_cases h0 : (chat == 0 || mid == 0) = true
        · rw [if_pos h0]
          rw [List.filter_cons_of_neg (by simp [is_send_effect])]; exact ih _
        · rw [if_neg h0]
          rcases ich with _ | _
          · rcases ch with _ | ⟨c, cs⟩
            · simp only [Bool.false_eq_true, if_false]
              exact ih _
            · simp only [Bool.false_eq_true, if_false]
              rw [List.filter_append,
                cancelChildrenWith_no_send rm hrm mid (c :: cs) _, ih _]
              rfl
          · simp only [if_true]
            show ((delete_message chat mid ++ _ : List Effect)).filter is_send_effect = []
            rw [List.filter_append, ih _]
            rfl

theorem remove_job_core_no_send :
    ∀ (fuel : Nat) (name : String) (q : List Job),
      ((remove_job_core fuel name q).2.1).filter is_send_effect = [] := by
  intro fuel
  induction fuel with
  | zero => intro name q; rw [remove_job_core_zero]; rfl
  | succ f ih =>
    intro name q
    rcases hcur : q.filter (fun job => job.name == name) with _ | ⟨j, rest⟩
    · rw [remove_job_core_succ_nil f name q hcur]; rfl
    · rw [remove_job_core_succ_cons f name q j rest hcur]
      exact processJobsWith_no_send _ (fun n qq => ih n qq) (j :: rest) q

theorem remove_job_if_exists_no_send (name : String) (ctx : Ctx) :
    ((remove_job_if_exists name ctx).2.1).filter is_send_effect = [] := by
  cases hq : ctx.job_queue with
  | none => simp [remove_job_if_exists, hq]
  | some q =>
    unfold remove_job_if_exists
    rw [hq]
    exact remove_job_core_no_send (q.length + 1) name q

@[simp] theorem gjn_child_ne_root (s c t : Nat) :
    get_job_name (Nat.repr c) (Nat.repr s) ≠ get_job_name (Nat.repr t) "root" :=
  childName_ne_rootName s c t

@[simp] theorem gjn_root_ne_child (t s c : Nat) :
    get_job_name (Nat.repr t) "root" ≠ get_job_name (Nat.repr c) (Nat.repr s) :=
  fun h => childName_ne_rootName s c t h.symm

/-- Cancelling a name whose only job in the queue is its head, a leaf child
job with usable ids, removes that job and immediately deletes its message. -/
theorem remove_is_child_job (f : Nat) (name : String) (jb : Job) (rest : List Job)
    (chat mid : Nat) (jc : JobContext)
    (hname : jb.name = name) (hctx : jb.context = some jc)
    (hchat : jc.chat_id = some chat) (hmid : jc.message_id = some mid)
    (hchild : jc.is_child_message = true) (hc0 : chat ≠ 0) (hm0 : mid ≠ 0)
    (hrest : rest.filter (fun j => j.name == name) = []) :
    remove_job_core (f + 1) name (jb :: rest)
      = (rest, [Effect.deleteMessage chat mid], true) := by
  have hfil : (jb :: rest).filter (fun j => j.name == name) = [jb] := by
    rw [List.filter_cons_of_pos (by simp [hname]), hrest]
  rw [remove_job_core_succ_cons f name (jb :: rest) jb [] hfil]
  have hcond : (chat == 0 || mid == 0) = false := by
    simp [hc0, hm0]
  simp [processJobsWith, hctx, hchat, hmid, hchild, hcond, List.erase_cons_head,
    delete_message]

/-- Arguments of one `set_timer` call on a fixed subject message. -/
structure TimerCall where
  due : Int
  children : List Message
  show_response : Bool

/-- Run a sequence of `set_timer` calls on the same subject message,
threading the context. -/
def run_set_timers (subject : Message) (calls : List TimerCall) (ctx : Ctx) : Ctx :=
  calls.foldl
    (fun c call => (set_timer c subject call.due call.children call.show_response).1) ctx

/-- Number of jobs registered in the store under the subject's root name. -/
def count_root_timers (subject_id : Nat) (ctx : Ctx) : Nat :=
  match ctx.job_queue with
  | none => 0
  | some q =>
    (q.filter (fun job => job.name == get_job_name (Nat.repr subject_id) "root")).length

theorem set_timer_preserves_some (ctx : Ctx) (q : List Job) (msg : Message) (due : Int)
    (children : List Message) (sr : Bool) (hq : ctx.job_queue = some q) :
    ∃ q' : List Job, (set_timer ctx msg due children sr).1.job_queue = some q' := by
  have hjq := remove_job_if_exists_job_queue
    (get_job_name (Nat.repr msg.message_id) "root") ctx q hq
  rcases sr <;> simp only [set_timer, hjq] <;> exact ⟨_, rfl⟩

/-- After any single `set_timer` call on a store, exactly one job under the
subject's root name exists: the prior batch is always cancelled first and
exactly one new root timer is registered. -/
theorem set_timer_root_count (ctx : Ctx) (q : List Job) (msg : Message) (due : Int)
    (children : List Message) (sr : Bool) (hq : ctx.job_queue = some q) :
    count_root_timers msg.message_id (set_timer ctx msg due children sr).1 = 1 := by
  have hjq := remove_job_if_exists_job_queue
    (get_job_name (Nat.repr msg.message_id) "root") ctx q hq
  have hfil : ((remove_job_core (q.length + 1)
        (get_job_name (Nat.repr msg.message_id) "root") q).1).filter
        (fun job => job.name == get_job_name (Nat.repr msg.message_id) "root") = [] :=
    remove_job_core_removes_all q.length _ q
  rcases sr <;>
    simp [set_timer, hjq, count_root_timers, List.filter_append, hfil,
      List.filter_map, Function.comp]

theorem run_set_timers_some (subject : Message) :
    ∀ (calls : List TimerCall) (ctx : Ctx) (q : List Job), ctx.job_queue = some q →
      ∃ q' : List Job, (run_set_timers subject calls ctx).job_queue = some q' := by
  intro calls
  induction calls with
  | nil => intro ctx q hq; exact ⟨q, hq⟩
  | cons c rest ih =>
    intro ctx q hq
    obtain ⟨q', hq'⟩ :=
      set_timer_preserves_some ctx q subject c.due c.children c.show_response hq
    exact ih _ _ hq'

/-!
Claim theorems.
-/

/-- C1: over any sequence of `set_timer` (`scheduleBatch`) calls on the same
subject message, after each call exactly one root timer for that subject
exists in the store — the call always cancels the prior root batch (a no-op
when none exists) and then registers exactly one new root timer. -/
theorem claim_C1_unique_root_timer (subject : Message) (calls : List TimerCall)
    (ctx : Ctx) (q : List Job) (i : Nat)
    (hq : ctx.job_queue = some q) (hi : i < calls.length) :
    count_root_timers subject.message_id
      (run_set_timers subject (calls.take (i + 1)) ctx) = 1 := by
  have htake : calls.take (i + 1) = calls.take i ++ [calls.get ⟨i, hi⟩] := by
    rw [← List.take_concat_get calls i hi, List.concat_eq_append]
    rfl
  rw [htake]
  have hrun : run_set_timers subject (calls.take i ++ [calls.get ⟨i, hi⟩]) ctx
      = (set_timer (run_set_timers subject (calls.take i) ctx) subject
          (calls.get ⟨i, hi⟩).due (calls.get ⟨i, hi⟩).children
          (calls.get ⟨i, hi⟩).show_response).1 := by
    simp only [run_set_timers, List.foldl_append, List.foldl_cons, List.foldl_nil]
  rw [hrun]
  obtain ⟨q', hq'⟩ := run_set_timers_some subject (calls.take i) ctx q hq
  exact set_timer_root_count _ q' subject _ _ _ hq'

theorem claim_C1_witness :
    count_root_timers 5
      (run_set_timers ⟨5, 7⟩
        (([⟨30, [⟨11, 7⟩], false⟩, ⟨60, [], true⟩] : List TimerCall).take (1 + 1))
        ⟨some [], 0, 9, []⟩) = 1 :=
  claim_C1_unique_root_timer ⟨5, 7⟩ [⟨30, [⟨11, 7⟩], false⟩, ⟨60, [], true⟩]
    ⟨some [], 0, 9, []⟩ [] 1 rfl (by decide)

/-- C7: `rootName` and `childName` are pure, deterministic functions of their
integer inputs — `rootName s = "root_" ++ s` and `childName s c = s ++ "_" ++ c`
as decimal strings — and distinct subject ids derive distinct root names. -/
theorem claim_C7_name_derivation (s t c : Nat) :
    rootName s = "root_" ++ Nat.repr s ∧
    childName s c = Nat.repr s ++ "_" ++ Nat.repr c ∧
    (s ≠ t → rootName s ≠ rootName t) := by
  refine ⟨?_, ?_, fun hst hr => hst (rootName_inj s t hr)⟩
  · apply String.ext
    simp [rootName, get_job_name_data, String.data_append]
  · apply String.ext
    simp [childName, get_job_name_data, String.data_append]

theorem claim_C7_witness :
    rootName 12 = "root_" ++ Nat.repr 12 ∧
    childName 12 34 = Nat.repr 12 ++ "_" ++ Nat.repr 34 ∧
    rootName 12 ≠ rootName 7 :=
  ⟨(claim_C7_name_derivation 12 7 34).1, (claim_C7_name_derivation 12 7 34).2.1,
   (claim_C7_name_derivation 12 7 34).2.2 (by decide)⟩

/-- C10: an `/unset` command that is not a reply makes the handler dereference
`reply_to_message.message_id` on `None`, an uncaught attribute-access error
raised while deriving the root job name, before any timer is touched. -/
theorem claim_C10_unset_not_reply_crashes (upd : Update) (ctx : Ctx)
    (h : upd.message.reply_to_message = none) :
    unset upd ctx =
      Except.error "AttributeError: NoneType object has no attribute message_id" := by
  simp only [unset, h]

theorem claim_C10_witness :
    unset ⟨⟨50, 7, none⟩⟩ ⟨some [], 0, 9, []⟩ =
      Except.error "AttributeError: NoneType object has no attribute message_id" :=
  claim_C10_unset_not_reply_crashes ⟨⟨50, 7, none⟩⟩ ⟨some [], 0, 9, []⟩ rfl

/-- C5: a root timer firing normally with a valid payload issues exactly one
`deleteMessage` call, for the subject message, none for any other id (in
particular none for the children listed in the payload), and the rest of the
queue — the children's own timers — is untouched. -/
theorem claim_C5_firing_independence (q : List Job) (job : Job) (data : JobContext)
    (chat mid : Nat)
    (hctx : job.context = some data) (hchat : data.chat_id = some chat)
    (hmid : data.message_id = some mid) (hc0 : chat ≠ 0) (hm0 : mid ≠ 0) :
    fire_job job q = Except.ok (q.erase job, [Effect.deleteMessage chat mid]) ∧
    (∀ c : Nat, c ≠ mid → Effect.deleteMessage chat c ∉ [Effect.deleteMessage chat mid]) ∧
    (∀ j ∈ q, j ≠ job → j ∈ q.erase job) := by
  refine ⟨?_, ?_, ?_⟩
  · simp [fire_job, hctx, purge_message, hchat, hmid, delete_message, hc0, hm0]
  · intro c hc
    simp [hc]
  · intro j hj hne
    exact (List.mem_erase_of_ne hne).mpr hj

theorem claim_C5_witness :
    fire_job ⟨"root_5", 10, some ⟨some 7, some 5, false, [11]⟩⟩ [] =
      Except.ok ([], [Effect.deleteMessage 7 5]) ∧
    Effect.deleteMessage 7 11 ∉ [Effect.deleteMessage 7 5] := by
  have h := claim_C5_firing_independence []
    ⟨"root_5", 10, some ⟨some 7, some 5, false, [11]⟩⟩
    ⟨some 7, some 5, false, [11]⟩ 7 5 rfl rfl rfl (by decide) (by decide)
  exact ⟨by simpa using h.1, h.2.1 11 (by decide)⟩

set_option linter.unnecessarySeqFocus false in
/-- C8: a fired or cancelled timer whose payload lacks a usable chat id or
message id is logged and dropped with no `deleteMessage` call and no
exception: `purge_message` returns only the log line, and cancellation
removes the job from the queue emitting only the log line. -/
theorem claim_C8_missing_context (data : JobContext)
    (hbad : (falsy data.chat_id || falsy data.message_id) = true) :
    purge_message data = [Effect.log "[Purge message] Missing params"] ∧
    ∀ (name : String) (t : Int) (ctx : Ctx),
      ctx.job_queue = some [⟨name, t, some data⟩] →
      remove_job_if_exists name ctx =
        ({ ctx with job_queue := some [] },
         [Effect.log "[Remove jobs] Invalid job context"], true) := by
  obtain ⟨oc, om, ich, ch⟩ := data
  constructor
  · rcases oc with _ | chat <;> rcases om with _ | mid <;>
      simp only [purge_message] <;>
      first
        | rfl
        | (have hc : (chat == 0 || mid == 0) = true := by simpa [falsy] using hbad
           rw [if_pos hc])
  · intro name t ctx hq
    have hfil : ([(⟨name, t, some ⟨oc, om, ich, ch⟩⟩ : Job)]).filter
        (fun job => job.name == name) = [⟨name, t, some ⟨oc, om, ich, ch⟩⟩] := by
      simp
    simp only [remove_job_if_exists, hq]
    rw [remove_job_core_succ_cons _ name _ _ _ hfil]
    rcases oc with _ | chat <;> rcases om with _ | mid <;>
      simp only [processJobsWith, List.erase_cons_head] <;>
      first
        | rfl
        | (have hc : (chat == 0 || mid == 0) = true := by simpa [falsy] using hbad
           simp [hc])

theorem claim_C8_witness :
    purge_message ⟨none, some 5, true, []⟩ =
      [Effect.log "[Purge message] Missing params"] ∧
    remove_job_if_exists "root_5"
        ⟨some [⟨"root_5", 3, some ⟨none, some 5, true, []⟩⟩], 0, 9, []⟩ =
      (⟨some [], 0, 9, []⟩, [Effect.log "[Remove jobs] Invalid job context"], true) := by
  have h := claim_C8_missing_context ⟨none, some 5, true, []⟩ (by decide)
  exact ⟨h.1, h.2 "root_5" 3 ⟨some [⟨"root_5", 3, some ⟨none, some 5, true, []⟩⟩], 0, 9, []⟩ rfl⟩

/-- C3 counterexample: calling `set_timer` (the spec's `scheduleBatch`)
directly with a negative delay does not fail — it registers a root timer
(due in the past) in the store, refuting both the synchronous failure and
the absence of a created timer. -/
theorem claim_C3_counterexample :
    (set_timer ⟨some [], 0, 100, []⟩ ⟨5, 7⟩ (-1) [] false).1.job_queue =
      some [⟨get_job_name (Nat.repr 5) "root", -1, some ⟨some 7, some 5, false, []⟩⟩] :=
  rfl

/-- C3 amended: the negative-delay rejection happens in the `/set` command
handler before `set_timer` is invoked: with a negative first argument the
handler replies with an apology and neither creates a timer nor changes the
store; `set_timer` itself performs no duration validation. -/
theorem claim_C3_amended (upd : Update) (ctx : Ctx) (root_message : Message)
    (d : Int) (rest : List Int)
    (hreply : upd.message.reply_to_message = some root_message)
    (hargs : ctx.args = d :: rest) (hneg : d < 0) :
    set_timer_from_command upd ctx =
      ({ ctx with next_bot_message_id := ctx.next_bot_message_id + 1 },
       [Effect.sendMessage upd.message.chat_id upd.message.message_id
          "Sorry we can not go back to future!" ctx.next_bot_message_id]) ∧
    (set_timer_from_command upd ctx).1.job_queue = ctx.job_queue := by
  have hmain : set_timer_from_command upd ctx =
      ({ ctx with next_bot_message_id := ctx.next_bot_message_id + 1 },
       [Effect.sendMessage upd.message.chat_id upd.message.message_id
          "Sorry we can not go back to future!" ctx.next_bot_message_id]) := by
    simp only [set_timer_from_command, hreply, hargs]
    rw [if_pos hneg]
    simp [reply_text, hargs]
  exact ⟨hmain, by rw [hmain]⟩

theorem claim_C3_witness :
    set_timer_from_command ⟨⟨50, 7, some ⟨5, 7⟩⟩⟩ ⟨some [], 0, 9, [-4]⟩ =
      (⟨some [], 0, 10, [-4]⟩,
       [Effect.sendMessage 7 50 "Sorry we can not go back to future!" 9]) := by
  have h := claim_C3_amended ⟨⟨50, 7, some ⟨5, 7⟩⟩⟩ ⟨some [], 0, 9, [-4]⟩ ⟨5, 7⟩
    (-4) [] rfl rfl (by decide)
  simpa using h.1

/-- C2: cancelling a root timer whose payload carries the three distinct
children `c1, c2, c3` issues exactly the three `deleteMessage` calls for
`c1, c2, c3` — immediately, at cancellation time — none for the subject, and
empties the store of the batch's timers. -/
theorem claim_C2_cascade_completeness (chat sid c1 c2 c3 : Nat) (now due : Int)
    (nb : Nat)
    (hchat : chat ≠ 0) (hsid : sid ≠ 0)
    (h1 : c1 ≠ 0) (h2 : c2 ≠ 0) (h3 : c3 ≠ 0)
    (h12 : c1 ≠ c2) (h13 : c1 ≠ c3) (h23 : c2 ≠ c3)
    (hs1 : sid ≠ c1) (hs2 : sid ≠ c2) (hs3 : sid ≠ c3) :
    remove_job_if_exists (get_job_name (Nat.repr sid) "root")
        (set_timer ⟨some [], now, nb, []⟩ ⟨sid, chat⟩ due
          [⟨c1, chat⟩, ⟨c2, chat⟩, ⟨c3, chat⟩] false).1
      = (⟨some [], now, nb, []⟩,
         [Effect.deleteMessage chat c1, Effect.deleteMessage chat c2,
          Effect.deleteMessage chat c3], true) ∧
    Effect.deleteMessage chat sid
      ∉ [Effect.deleteMessage chat c1, Effect.deleteMessage chat c2,
         Effect.deleteMessage chat c3] := by
  refine ⟨?_, by simp [hs1, hs2, hs3]⟩
  have hctx1 : (set_timer ⟨some [], now, nb, []⟩ ⟨sid, chat⟩ due
      [⟨c1, chat⟩, ⟨c2, chat⟩, ⟨c3, chat⟩] false).1
      = ⟨some
          [⟨get_job_name (Nat.repr c1) (Nat.repr sid), now + due,
            some ⟨some chat, some c1, true, []⟩⟩,
           ⟨get_job_name (Nat.repr c2) (Nat.repr sid), now + due,
            some ⟨some chat, some c2, true, []⟩⟩,
           ⟨get_job_name (Nat.repr c3) (Nat.repr sid), now + due,
            some ⟨some chat, some c3, true, []⟩⟩,
           ⟨get_job_name (Nat.repr sid) "root", now + due,
            some ⟨some chat, some sid, false, [c1, c2, c3]⟩⟩],
         now, nb, []⟩ := rfl
  rw [hctx1]
  have hfilR :
      ([⟨get_job_name (Nat.repr c1) (Nat.repr sid), now + due,
         some ⟨some chat, some c1, true, []⟩⟩,
        ⟨get_job_name (Nat.repr c2) (Nat.repr sid), now + due,
         some ⟨some chat, some c2, true, []⟩⟩,
        ⟨get_job_name (Nat.repr c3) (Nat.repr sid), now + due,
         some ⟨some chat, some c3, true, []⟩⟩,
        ⟨get_job_name (Nat.repr sid) "root", now + due,
         some ⟨some chat, some sid, false, [c1, c2, c3]⟩⟩] : List Job).filter
        (fun job => job.name == get_job_name (Nat.repr sid) "root")
      = [⟨get_job_name (Nat.repr sid) "root", now + due,
          some ⟨some chat, some sid, false, [c1, c2, c3]⟩⟩] := by
    simp
  simp only [remove_job_if_exists]
  rw [remove_job_core_succ_cons _ _ _ _ _ hfilR]
  have hb21 : (c2 == c1) = false := beq_eq_false_iff_ne.mpr (Ne.symm h12)
  have hb31 : (c3 == c1) = false := beq_eq_false_iff_ne.mpr (Ne.symm h13)
  have hb32 : (c3 == c2) = false := beq_eq_false_iff_ne.mpr (Ne.symm h23)
  have hrm1 : remove_job_core (3 + 1) (get_job_name (Nat.repr c1) (Nat.repr sid))
      [⟨get_job_name (Nat.repr c1) (Nat.repr sid), now + due,
        some ⟨some chat, some c1, true, []⟩⟩,
       ⟨get_job_name (Nat.repr c2) (Nat.repr sid), now + due,
        some ⟨some chat, some c2, true, []⟩⟩,
       ⟨get_job_name (Nat.repr c3) (Nat.repr sid), now + due,
        some ⟨some chat, some c3, true, []⟩⟩]
      = ([⟨get_job_name (Nat.repr c2) (Nat.repr sid), now + due,
           some ⟨some chat, some c2, true, []⟩⟩,
          ⟨get_job_name (Nat.repr c3) (Nat.repr sid), now + due,
           some ⟨some chat, some c3, true, []⟩⟩],
         [Effect.deleteMessage chat c1], true) :=
    remove_is_child_job 3 _ _ _ chat c1 ⟨some chat, some c1, true, []⟩
      rfl rfl rfl rfl rfl hchat h1 (by simp [hb21, hb31])
  have hrm2 : remove_job_core (3 + 1) (get_job_name (Nat.repr c2) (Nat.repr sid))
      [⟨get_job_name (Nat.repr c2) (Nat.repr sid), now + due,
        some ⟨some chat, some c2, true, []⟩⟩,
       ⟨get_job_name (Nat.repr c3) (Nat.repr sid), now + due,
        some ⟨some chat, some c3, true, []⟩⟩]
      = ([⟨get_job_name (Nat.repr c3) (Nat.repr sid), now + due,
           some ⟨some chat, some c3, true, []⟩⟩],
         [Effect.deleteMessage chat c2], true) :=
    remove_is_child_job 3 _ _ _ chat c2 ⟨some chat, some c2, true, []⟩
      rfl rfl rfl rfl rfl hchat h2 (by simp [hb32])
  have hrm3 : remove_job_core (3 + 1) (get_job_name (Nat.repr c3) (Nat.repr sid))
      [⟨get_job_name (Nat.repr c3) (Nat.repr sid), now + due,
        some ⟨some chat, some c3, true, []⟩⟩]
      = ([], [Effect.deleteMessage chat c3], true) :=
    remove_is_child_job 3 _ _ _ chat c3 ⟨some chat, some c3, true, []⟩
      rfl rfl rfl rfl rfl hchat h3 rfl
  have hcond : (chat == 0 || sid == 0) = false := by simp [hchat, hsid]
  have herase :
      ([⟨get_job_name (Nat.repr c1) (Nat.repr sid), now + due,
         some ⟨some chat, some c1, true, []⟩⟩,
        ⟨get_job_name (Nat.repr c2) (Nat.repr sid), now + due,
         some ⟨some chat, some c2, true, []⟩⟩,
        ⟨get_job_name (Nat.repr c3) (Nat.repr sid), now + due,
         some ⟨some chat, some c3, true, []⟩⟩,
        ⟨get_job_name (Nat.repr sid) "root", now + due,
         some ⟨some chat, some sid, false, [c1, c2, c3]⟩⟩] : List Job).erase
        ⟨get_job_name (Nat.repr sid) "root", now + due,
         some ⟨some chat, some sid, false, [c1, c2, c3]⟩⟩
      = [⟨get_job_name (Nat.repr c1) (Nat.repr sid), now + due,
          some ⟨some chat, some c1, true, []⟩⟩,
         ⟨get_job_name (Nat.repr c2) (Nat.repr sid), now + due,
          some ⟨some chat, some c2, true, []⟩⟩,
         ⟨get_job_name (Nat.repr c3) (Nat.repr sid), now + due,
          some ⟨some chat, some c3, true, []⟩⟩] := by
    simp [List.erase_cons]
  simp only [processJobsWith, herase, hcond, cancelChildrenWith,
    show (List.length
      ([⟨get_job_name (Nat.repr c1) (Nat.repr sid), now + due,
         some ⟨some chat, some c1, true, []⟩⟩,
        ⟨get_job_name (Nat.repr c2) (Nat.repr sid), now + due,
         some ⟨some chat, some c2, true, []⟩⟩,
        ⟨get_job_name (Nat.repr c3) (Nat.repr sid), now + due,
         some ⟨some chat, some c3, true, []⟩⟩,
        ⟨get_job_name (Nat.repr sid) "root", now + due,
         some ⟨some chat, some sid, false, [c1, c2, c3]⟩⟩] : List Job)) = 3 + 1
      from rfl,
    hrm1, hrm2, hrm3]
  simp

theorem claim_C2_witness :
    remove_job_if_exists (get_job_name (Nat.repr 5) "root")
        (set_timer ⟨some [], 100, 900, []⟩ ⟨5, 7⟩ 30
          [⟨11, 7⟩, ⟨12, 7⟩, ⟨13, 7⟩] false).1
      = (⟨some [], 100, 900, []⟩,
         [Effect.deleteMessage 7 11, Effect.deleteMessage 7 12,
          Effect.deleteMessage 7 13], true) ∧
    Effect.deleteMessage 7 5
      ∉ [Effect.deleteMessage 7 11, Effect.deleteMessage 7 12,
         Effect.deleteMessage 7 13] :=
  claim_C2_cascade_completeness 7 5 11 12 13 100 30 900
    (by decide) (by decide) (by decide) (by decide) (by decide) (by decide)
    (by decide) (by decide) (by decide) (by decide) (by decide)

/-- C4: unscheduling a subject with no active root timer in the store returns
`false`, issues no effect, and leaves the context (hence the store)
unchanged; accordingly the `/unset` handler deletes nothing. -/
theorem claim_C4_idempotent_unschedule (ctx : Ctx) (q : List Job) (upd : Update)
    (reply : Message)
    (hreply : upd.message.reply_to_message = some reply)
    (hq : ctx.job_queue = some q)
    (hnone : q.filter (fun job => job.name == get_job_name (Nat.repr reply.message_id) "root")
      = []) :
    remove_job_if_exists (get_job_name (Nat.repr reply.message_id) "root") ctx
      = (ctx, [], false) ∧
    unset upd ctx = Except.ok (ctx, []) := by
  have hr : remove_job_if_exists (get_job_name (Nat.repr reply.message_id) "root") ctx
      = (ctx, [], false) := by
    simp only [remove_job_if_exists, hq]
    rw [remove_job_core_succ_nil _ _ _ hnone]
    obtain ⟨jq, n, b, a⟩ := ctx
    simp only [Option.some.injEq] at hq
    rw [hq]
  refine ⟨hr, ?_⟩
  simp only [unset, hreply, hr]
  simp

/-- C6: scheduling with `announce` sends exactly one confirmation message, as
a reply to the subject, stating the delay and whether an old timer was
removed; registers a leaf child timer for that confirmation message at
`now + due`; and registers the root timer whose children list carries the
confirmation id alongside the ids of all extra messages. -/
theorem claim_C6_announce (ctx : Ctx) (q : List Job) (msg : Message) (due : Int)
    (extras : List Message)
    (hq : ctx.job_queue = some q) :
    (set_timer ctx msg due extras true).2
      = (remove_job_if_exists (get_job_name (Nat.repr msg.message_id) "root") ctx).2.1
        ++ [Effect.sendMessage msg.chat_id msg.message_id
             (if (remove_job_if_exists (get_job_name (Nat.repr msg.message_id) "root")
                   ctx).2.2
              then "Old timer was removed. " ++
                ("This message will delete after " ++ toString due ++ " second(s)")
              else "This message will delete after " ++ toString due ++ " second(s)")
             ctx.next_bot_message_id] ∧
    ((set_timer ctx msg due extras true).2).filter is_send_effect
      = [Effect.sendMessage msg.chat_id msg.message_id
          (if (remove_job_if_exists (get_job_name (Nat.repr msg.message_id) "root")
                ctx).2.2
           then "Old timer was removed. " ++
             ("This message will delete after " ++ toString due ++ " second(s)")
           else "This message will delete after " ++ toString due ++ " second(s)")
          ctx.next_bot_message_id] ∧
    (set_timer ctx msg due extras true).1.job_queue
      = some ((remove_job_core (q.length + 1)
            (get_job_name (Nat.repr msg.message_id) "root") q).1
          ++ extras.map (fun child =>
              ⟨get_job_name (Nat.repr child.message_id) (Nat.repr msg.message_id),
               ctx.now + due,
               some ⟨some msg.chat_id, some child.message_id, true, []⟩⟩)
          ++ [⟨get_job_name (Nat.repr ctx.next_bot_message_id) (Nat.repr msg.message_id),
               ctx.now + due,
               some ⟨some msg.chat_id, some ctx.next_bot_message_id, true, []⟩⟩]
          ++ [⟨get_job_name (Nat.repr msg.message_id) "root", ctx.now + due,
               some ⟨some msg.chat_id, some msg.message_id, false,
                     extras.map (fun child => child.message_id)
                       ++ [ctx.next_bot_message_id]⟩⟩]) := by
  have hjq := remove_job_if_exists_job_queue
    (get_job_name (Nat.repr msg.message_id) "root") ctx q hq
  obtain ⟨hnow, hnb, hargs⟩ :=
    remove_job_if_exists_env (get_job_name (Nat.repr msg.message_id) "root") ctx
  have heff : (set_timer ctx msg due extras true).2
      = (remove_job_if_exists (get_job_name (Nat.repr msg.message_id) "root") ctx).2.1
        ++ [Effect.sendMessage msg.chat_id msg.message_id
             (if (remove_job_if_exists (get_job_name (Nat.repr msg.message_id) "root")
                   ctx).2.2
              then "Old timer was removed. " ++
                ("This message will delete after " ++ toString due ++ " second(s)")
              else "This message will delete after " ++ toString due ++ " second(s)")
             ctx.next_bot_message_id] := by
    simp only [set_timer, hjq, reply_text, hnb, if_true]
  refine ⟨heff, ?_, ?_⟩
  · rw [heff, List.filter_append, remove_job_if_exists_no_send]
    rfl
  · simp only [set_timer, hjq, reply_text, hnb, hnow, if_true]

theorem claim_C6_witness :
    (set_timer ⟨some [], 100, 900, []⟩ ⟨5, 7⟩ 4 [⟨11, 7⟩] true).2
      = [Effect.sendMessage 7 5 "This message will delete after 4 second(s)" 900] ∧
    ((set_timer ⟨some [], 100, 900, []⟩ ⟨5, 7⟩ 4 [⟨11, 7⟩] true).2).filter is_send_effect
      = [Effect.sendMessage 7 5 "This message will delete after 4 second(s)" 900] ∧
    (set_timer ⟨some [], 100, 900, []⟩ ⟨5, 7⟩ 4 [⟨11, 7⟩] true).1.job_queue
      = some [⟨get_job_name (Nat.repr 11) (Nat.repr 5), 104,
               some ⟨some 7, some 11, true, []⟩⟩,
              ⟨get_job_name (Nat.repr 900) (Nat.repr 5), 104,
               some ⟨some 7, some 900, true, []⟩⟩,
              ⟨get_job_name (Nat.repr 5) "root", 104,
               some ⟨some 7, some 5, false, [11, 900]⟩⟩] := by
  have h := claim_C6_announce ⟨some [], 100, 900, []⟩ [] ⟨5, 7⟩ 4 [⟨11, 7⟩] rfl
  exact ⟨h.1.trans (by rfl), h.2.1.trans (by rfl), h.2.2.trans (by rfl)⟩

/-- C9: when the `/unset` handler is given a reply target and a job queue
exists, it returns the cancellation's outcome and, exactly when a batch was
found and removed, additionally deletes the `/unset` command message itself;
when nothing was removed the command message is not deleted. -/
theorem claim_C9_unset_deletes_command (upd : Update) (ctx : Ctx) (reply : Message)
    (q : List Job)
    (hreply : upd.message.reply_to_message = some reply)
    (hq : ctx.job_queue = some q) :
    (((remove_job_if_exists (get_job_name (Nat.repr reply.message_id) "root") ctx).2.2
        = true) →
      unset upd ctx = Except.ok
        ((remove_job_if_exists (get_job_name (Nat.repr reply.message_id) "root") ctx).1,
         (remove_job_if_exists (get_job_name (Nat.repr reply.message_id) "root") ctx).2.1
           ++ [Effect.deleteMessage upd.message.chat_id upd.message.message_id])) ∧
    (((remove_job_if_exists (get_job_name (Nat.repr reply.message_id) "root") ctx).2.2
        = false) →
      unset upd ctx = Except.ok
        ((remove_job_if_exists (get_job_name (Nat.repr reply.message_id) "root") ctx).1,
         (remove_job_if_exists (get_job_name (Nat.repr reply.message_id) "root") ctx).2.1)) := by
  have hsome : (remove_job_if_exists (get_job_name (Nat.repr reply.message_id) "root")
      ctx).1.job_queue.isSome = true := by
    rw [remove_job_if_exists_job_queue _ ctx q hq]
    rfl
  constructor
  · intro hrem
    simp only [unset, hreply, hrem, hsome, Bool.and_self, if_true]
    rfl
  · intro hrem
    simp only [unset, hreply, hrem, Bool.and_false, Bool.false_eq_true, if_false]

theorem claim_C9_witness :
    unset ⟨⟨50, 7, some ⟨5, 7⟩⟩⟩
        ⟨some [⟨get_job_name (Nat.repr 5) "root", 60,
               some ⟨some 7, some 5, false, []⟩⟩], 0, 9, []⟩ =
      Except.ok (⟨some [], 0, 9, []⟩, [Effect.deleteMessage 7 50]) ∧
    unset ⟨⟨50, 7, some ⟨5, 7⟩⟩⟩ ⟨some [], 0, 9, []⟩ =
      Except.ok (⟨some [], 0, 9, []⟩, []) := by
  constructor
  · have h := (claim_C9_unset_deletes_command ⟨⟨50, 7, some ⟨5, 7⟩⟩⟩
      ⟨some [⟨get_job_name (Nat.repr 5) "root", 60, some ⟨some 7, some 5, false, []⟩⟩],
       0, 9, []⟩ ⟨5, 7⟩ _ rfl rfl).1 rfl
    exact h.trans (by rfl)
  · have h := (claim_C9_unset_deletes_command ⟨⟨50, 7, some ⟨5, 7⟩⟩⟩
      ⟨some [], 0, 9, []⟩ ⟨5, 7⟩ _ rfl rfl).2 rfl
    exact h.trans (by rfl)

theorem claim_C4_witness :
    remove_job_if_exists (get_job_name (Nat.repr 5) "root") ⟨some [], 0, 9, []⟩
      = (⟨some [], 0, 9, []⟩, [], false) ∧
    unset ⟨⟨50, 7, some ⟨5, 7⟩⟩⟩ ⟨some [], 0, 9, []⟩ =
      Except.ok (⟨some [], 0, 9, []⟩, []) :=
  claim_C4_idempotent_unschedule ⟨some [], 0, 9, []⟩ [] ⟨⟨50, 7, some ⟨5, 7⟩⟩⟩ ⟨5, 7⟩
    rfl rfl rfl

end AutoDeleteBot
